import Mathlib

set_option maxHeartbeats 1000000

/-! Verification development for the `sendmail` repository.

The file shallowly embeds the two relevant source units:

* the SMTP transaction client of the `nvsmtp` package (`SendMail` and
  `validateLine`): network effects are modelled by a `Server` oracle that
  fixes the server's reply for every protocol step, and the embedded
  `SendMail` returns both the Go function's result and an explicit trace of
  the protocol events it performed (dial, greeting, STARTTLS, AUTH, MAIL,
  RCPT, DATA, write, close of the data writer, QUIT, and closing the
  connection);

* the envelope construction and relay selection of the `sendmail` package
  (`NewEnvelope`, `Send`): the external parsers and system calls
  (`mail.ReadMessage`, `mail.ParseAddressList`, `Header.AddressList`,
  `GetDumbMessage`, `user.Current`, `os.Hostname`, base64) are modelled by a
  `Parse` oracle, and the configuration file read of `Send` by a `FileRead`
  value. -/

/-- Errors of the embedded SMTP client.  `crlfLine` stands for the Go error
"smtp: A line must not contain CR or LF", `noAuthSupport` for
"smtp: server doesn't support AUTH", and `server code` abstracts any error
coming back from the server side. -/
inductive SmtpError where
  | crlfLine
  | noAuthSupport
  | server (code : Nat)
  deriving DecidableEq

/-- One protocol event of an SMTP session, in the order the client can emit
them.  `starttls` records the `InsecureSkipVerify` flag of the TLS
configuration the client passes at the upgrade.  `dial` and `close` mark the
opening and closing of the single network connection. -/
inductive Event where
  | dial
  | hello (localName : String)
  | starttls (insecureSkipVerify : Bool)
  | auth
  | mail (sender : String)
  | rcpt (addr : String)
  | data
  | write
  | closeWriter
  | quit
  | close
  deriving DecidableEq

/-- Authentication credentials (the Go `smtp.Auth` value; only its presence
matters for the control flow of `SendMail`). -/
structure Auth where
  mech : String
  deriving DecidableEq

/-- Oracle fixing the behaviour of the remote SMTP server and of the
network: the outcome of the dial and of every subsequent command, and which
extensions the server advertises. -/
structure Server where
  dial : Except SmtpError Unit
  helloResp : Except SmtpError Unit
  extSTARTTLS : Bool
  startTLSResp : Except SmtpError Unit
  extAUTH : Bool
  authResp : Except SmtpError Unit
  mailResp : String → Except SmtpError Unit
  rcptResp : String → Except SmtpError Unit
  dataResp : Except SmtpError Unit
  writeResp : Except SmtpError Unit
  closeWriterResp : Except SmtpError Unit
  quitResp : Except SmtpError Unit

/-- Whether a string contains a carriage return or line feed
(`strings.ContainsAny(line, "\n\r")`). -/
def containsCRLF (line : String) : Bool :=
  line.data.any (fun c => c == '\n' || c == '\r')

/-- Embeds `validateLine`: reject a line containing CR or LF (RFC 5321). -/
def validateLine (line : String) : Except SmtpError Unit :=
  if containsCRLF line then .error .crlfLine else .ok ()

/-- The validation loop of `SendMail` over the recipient list: return the
first validation error, if any. -/
def validateAll : List String → Except SmtpError Unit
  | [] => .ok ()
  | r :: rs =>
    match validateLine r with
    | .error e => .error e
    | .ok _ => validateAll rs

/-- The STARTTLS step of `SendMail`: if the server advertises STARTTLS, the
client attempts the upgrade with `InsecureSkipVerify: true`; otherwise the
step is skipped. -/
def doStartTLS (srv : Server) : Except SmtpError Unit × List Event :=
  if srv.extSTARTTLS then
    match srv.startTLSResp with
    | .error e => (.error e, [Event.starttls true])
    | .ok _ => (.ok (), [Event.starttls true])
  else (.ok (), [])

/-- The AUTH step of `SendMail`: only run when credentials were supplied;
fails with `noAuthSupport` when the server does not advertise AUTH, and with
the server's error when the exchange itself fails. -/
def doAuth (srv : Server) (a : Option Auth) : Except SmtpError Unit × List Event :=
  match a with
  | none => (.ok (), [])
  | some _ =>
    if srv.extAUTH then
      match srv.authResp with
      | .error e => (.error e, [Event.auth])
      | .ok _ => (.ok (), [Event.auth])
    else (.error .noAuthSupport, [])

/-- The RCPT loop of `SendMail`: declare each recipient in turn and return
the first rejection, aborting the remaining declarations. -/
def rcptLoop (srv : Server) : List String → Except SmtpError Unit × List Event
  | [] => (.ok (), [])
  | r :: rs =>
    match srv.rcptResp r with
    | .error e => (.error e, [Event.rcpt r])
    | .ok _ => ((rcptLoop srv rs).1, Event.rcpt r :: (rcptLoop srv rs).2)

/-- The envelope and data phase of `SendMail`: MAIL, the RCPT loop, DATA,
writing the message, closing the data writer, QUIT. -/
def envelopePhase (srv : Server) (fromAddr : String) (rcpts : List String) :
    Except SmtpError Unit × List Event :=
  match srv.mailResp fromAddr with
  | .error e => (.error e, [Event.mail fromAddr])
  | .ok _ =>
    match (rcptLoop srv rcpts).1 with
    | .error e => (.error e, Event.mail fromAddr :: (rcptLoop srv rcpts).2)
    | .ok _ =>
      match srv.dataResp with
      | .error e => (.error e, Event.mail fromAddr :: (rcptLoop srv rcpts).2 ++ [Event.data])
      | .ok _ =>
        match srv.writeResp with
        | .error e =>
          (.error e,
           Event.mail fromAddr :: (rcptLoop srv rcpts).2 ++ [Event.data, Event.write])
        | .ok _ =>
          match srv.closeWriterResp with
          | .error e =>
            (.error e,
             Event.mail fromAddr :: (rcptLoop srv rcpts).2 ++
               [Event.data, Event.write, Event.closeWriter])
          | .ok _ =>
            (srv.quitResp,
             Event.mail fromAddr :: (rcptLoop srv rcpts).2 ++
               [Event.data, Event.write, Event.closeWriter, Event.quit])

/-- The session of `SendMail` after a successful dial: greeting with the
local hostname, then STARTTLS, AUTH and the envelope phase, stopping at the
first failure. -/
def session (srv : Server) (localHost : String) (a : Option Auth) (fromAddr : String)
    (rcpts : List String) : Except SmtpError Unit × List Event :=
  match srv.helloResp with
  | .error e => (.error e, [Event.hello localHost])
  | .ok _ =>
    match (doStartTLS srv).1 with
    | .error e => (.error e, Event.hello localHost :: (doStartTLS srv).2)
    | .ok _ =>
      match (doAuth srv a).1 with
      | .error e => (.error e, Event.hello localHost :: (doStartTLS srv).2 ++ (doAuth srv a).2)
      | .ok _ =>
        ((envelopePhase srv fromAddr rcpts).1,
         Event.hello localHost :: (doStartTLS srv).2 ++ (doAuth srv a).2 ++
           (envelopePhase srv fromAddr rcpts).2)

/-- Behaviour of `SendMail` after address validation: dial, and on success
run the session with the connection closed at return (`defer c.Close()`); a
failed dial opens no connection. -/
def afterValidation (srv : Server) (localHost : String) (a : Option Auth) (fromAddr : String)
    (rcpts : List String) (msg : List Nat) : Except SmtpError Unit × List Event :=
  match srv.dial with
  | .error e => (.error e, [])
  | .ok _ =>
    ((session srv localHost a fromAddr rcpts).1,
     Event.dial :: (session srv localHost a fromAddr rcpts).2 ++ [Event.close])

/-- Embeds `nvsmtp.SendMail`: validate the sender and every recipient, then
dial and run the SMTP session.  The second component is the trace of
protocol events actually performed. -/
def SendMail (srv : Server) (localHost : String) (a : Option Auth) (fromAddr : String)
    (rcpts : List String) (msg : List Nat) : Except SmtpError Unit × List Event :=
  match validateLine fromAddr with
  | .error e => (.error e, [])
  | .ok _ =>
    match validateAll rcpts with
    | .error e => (.error e, [])
    | .ok _ => afterValidation srv localHost a fromAddr rcpts msg

/-- Trace of a `SendMail` invocation. -/
def sendTrace (srv : Server) (localHost : String) (a : Option Auth) (fromAddr : String)
    (rcpts : List String) (msg : List Nat) : List Event :=
  (SendMail srv localHost a fromAddr rcpts msg).2

theorem validateAll_eq_ok (rcpts : List String) :
    validateAll rcpts = .ok () ↔ ∀ r ∈ rcpts, containsCRLF r = false := by
  induction rcpts with
  | nil => simp [validateAll]
  | cons r rs ih =>
    by_cases h : containsCRLF r = true
    · simp [validateAll, validateLine, h]
    · simp only [Bool.not_eq_true] at h
      simp [validateAll, validateLine, h, ih]

theorem validateAll_eq_err (rcpts : List String) (h : ∃ r ∈ rcpts, containsCRLF r = true) :
    validateAll rcpts = .error .crlfLine := by
  induction rcpts with
  | nil => simp at h
  | cons r rs ih =>
    by_cases hr : containsCRLF r = true
    · simp [validateAll, validateLine, hr]
    · simp only [Bool.not_eq_true] at hr
      rcases h with ⟨x, hx, hcx⟩
      rcases List.mem_cons.1 hx with rfl | hx


      · exact absurd hcx (by simp [hr])
      · simp [validateAll, validateLine, hr]
        exact ih ⟨x, hx, hcx⟩

theorem sendMail_eq_afterValidation (srv : Server) (localHost : String) (a : Option Auth)
    (fromAddr : String) (rcpts : List String) (msg : List Nat)
    (hf : containsCRLF fromAddr = false) (hto : ∀ r ∈ rcpts, containsCRLF r = false) :
    SendMail srv localHost a fromAddr rcpts msg =
      afterValidation srv localHost a fromAddr rcpts msg := by
  simp [SendMail, validateLine, hf, (validateAll_eq_ok rcpts).2 hto]

/-- A server that accepts everything and advertises both extensions. -/
def okSrv : Server where
  dial := .ok ()
  helloResp := .ok ()
  extSTARTTLS := true
  startTLSResp := .ok ()
  extAUTH := true
  authResp := .ok ()
  mailResp := fun _ => .ok ()
  rcptResp := fun _ => .ok ()
  dataResp := .ok ()
  writeResp := .ok ()
  closeWriterResp := .ok ()
  quitResp := .ok ()

/-- Claim C3: a sender or recipient address containing CR or LF makes
`SendMail` return the validation error with an empty event trace (no network
activity, in particular no dial); conversely, when the sender and all
recipients are free of CR and LF, validation passes and `SendMail` proceeds
into the network phase `afterValidation`. -/
theorem sendMail_crlf_guard (srv : Server) (localHost : String) (a : Option Auth)
    (fromAddr : String) (rcpts : List String) (msg : List Nat) :
    ((containsCRLF fromAddr = true ∨ ∃ r ∈ rcpts, containsCRLF r = true) →
       SendMail srv localHost a fromAddr rcpts msg = (.error .crlfLine, [])) ∧
    ((containsCRLF fromAddr = false ∧ ∀ r ∈ rcpts, containsCRLF r = false) →
       SendMail srv localHost a fromAddr rcpts msg =
         afterValidation srv localHost a fromAddr rcpts msg) := by
  constructor
  · intro h
    rcases h with h | h
    · simp [SendMail, validateLine, h]
    · by_cases hf : containsCRLF fromAddr = true
      · simp [SendMail, validateLine, hf]
      · simp only [Bool.not_eq_true] at hf
        simp [SendMail, validateLine, hf, validateAll_eq_err rcpts h]
  · rintro ⟨hf, hto⟩
    exact sendMail_eq_afterValidation srv localHost a fromAddr rcpts msg hf hto

/-- Witness for C3 at concrete inputs. -/
theorem sendMail_crlf_guard_w :
    SendMail okSrv "mta.local" none "a@b\n" ["c@d"] [] = (.error .crlfLine, []) ∧
    SendMail okSrv "mta.local" none "a@b" ["c@d"] [] =
      afterValidation okSrv "mta.local" none "a@b" ["c@d"] [] :=
  ⟨(sendMail_crlf_guard okSrv "mta.local" none "a@b\n" ["c@d"] []).1 (Or.inl (by decide)),
   (sendMail_crlf_guard okSrv "mta.local" none "a@b" ["c@d"] []).2 ⟨by decide, by decide⟩⟩

deriving instance DecidableEq for Except

theorem rcptLoop_abort (srv : Server) (pre post : List String) (r : String) (e : SmtpError)
    (hok : ∀ x ∈ pre, srv.rcptResp x = .ok ())
    (hr : srv.rcptResp r = .error e) :
    rcptLoop srv (pre ++ r :: post) = (.error e, pre.map Event.rcpt ++ [Event.rcpt r]) := by
  induction pre with
  | nil => simp [rcptLoop, hr]
  | cons x xs ih =>
    have hx : srv.rcptResp x = .ok () := hok x (by simp)
    have hxs := ih (fun y hy => hok y (by simp [hy]))
    simp [rcptLoop, hx, hxs]

/-- A server that behaves like `okSrv` but advertises no extension and
rejects the recipient `"bad@x"` with a 550 reply. -/
def rejectSrv : Server :=
  { okSrv with
    extSTARTTLS := false
    extAUTH := false
    rcptResp := fun r => if r == "bad@x" then .error (.server 550) else .ok () }

/-- Claim C1 counterexample: against a server that rejects the first
recipient `"bad@x"` but would accept the second one `"ok@x"`, `SendMail`
neither declares the second recipient nor transfers the message body — it
returns the rejection as the error of the whole call, refuting that the
session continues for the remaining recipients. -/
theorem sendMail_rcpt_abort_cex :
    (SendMail rejectSrv "mta.local" none "s@x" ["bad@x", "ok@x"] []).1 =
        .error (.server 550) ∧
      Event.rcpt "ok@x" ∉ (SendMail rejectSrv "mta.local" none "s@x" ["bad@x", "ok@x"] []).2 ∧
      Event.data ∉ (SendMail rejectSrv "mta.local" none "s@x" ["bad@x", "ok@x"] []).2 :=
  ⟨by decide, by decide, by decide⟩

/-- Claim C1 (amended): when a server rejects one recipient during the RCPT
loop, `SendMail` returns that error at once and aborts the transaction —
recipients accepted before the rejection are the only declared ones, the
recipients after the rejected one are never declared, and no DATA transfer
happens; only the connection close is still performed. -/
theorem sendMail_rcpt_abort (srv : Server) (localHost fromAddr : String)
    (pre post : List String) (r : String) (msg : List Nat) (e : SmtpError)
    (hf : containsCRLF fromAddr = false)
    (hto : ∀ x ∈ pre ++ r :: post, containsCRLF x = false)
    (hdial : srv.dial = .ok ()) (hhello : srv.helloResp = .ok ())
    (htls : srv.extSTARTTLS = false)
    (hmail : srv.mailResp fromAddr = .ok ())
    (hok : ∀ x ∈ pre, srv.rcptResp x = .ok ())
    (hr : srv.rcptResp r = .error e) :
    SendMail srv localHost none fromAddr (pre ++ r :: post) msg =
      (.error e,
       [Event.dial, Event.hello localHost, Event.mail fromAddr] ++
         pre.map Event.rcpt ++ [Event.rcpt r, Event.close]) := by
  rw [sendMail_eq_afterValidation srv localHost none fromAddr (pre ++ r :: post) msg hf hto]
  simp [afterValidation, hdial, session, hhello, doStartTLS, htls, doAuth,
    envelopePhase, hmail, rcptLoop_abort srv pre post r e hok hr]

/-- Witness for the amended C1 at a concrete server and recipient list. -/
theorem sendMail_rcpt_abort_w :
    SendMail rejectSrv "mta.local" none "s@x" ["good@x", "bad@x", "post@x"] [] =
      (.error (.server 550),
       [Event.dial, Event.hello "mta.local", Event.mail "s@x"] ++
         ["good@x"].map Event.rcpt ++ [Event.rcpt "bad@x", Event.close]) :=
  sendMail_rcpt_abort rejectSrv "mta.local" "s@x" ["good@x"] ["post@x"] "bad@x" []
    (.server 550) (by decide) (by decide) (by decide) (by decide) (by decide)
    (by decide) (by decide) (by decide)

/-- Statement that the event list `l` is an initial segment of `m`. -/
def IsPre (l m : List Event) : Prop := ∃ t, l ++ t = m

theorem IsPre.zero (m : List Event) : IsPre [] m := ⟨m, rfl⟩

theorem IsPre.same (m : List Event) : IsPre m m := ⟨[], by simp⟩

theorem IsPre.cons (x : Event) {l m : List Event} (h : IsPre l m) :
    IsPre (x :: l) (x :: m) := by
  rcases h with ⟨t, rfl⟩
  exact ⟨t, rfl⟩

theorem IsPre.append_left (pre : List Event) {l m : List Event} (h : IsPre l m) :
    IsPre (pre ++ l) (pre ++ m) := by
  rcases h with ⟨t, rfl⟩
  exact ⟨t, by simp⟩

theorem IsPre.ext_right {l m : List Event} (h : IsPre l m) (ext : List Event) :
    IsPre l (m ++ ext) := by
  rcases h with ⟨t, rfl⟩
  exact ⟨t ++ ext, by simp⟩

theorem IsPre.of_append (l ext : List Event) : IsPre l (l ++ ext) := ⟨ext, rfl⟩

/-- The events the STARTTLS step contributes on a server advertising the
extension (the upgrade attempt, with `InsecureSkipVerify: true`), and on one
that does not (nothing). -/
def tlsTraceFull (srv : Server) : List Event :=
  if srv.extSTARTTLS then [Event.starttls true] else []

/-- The events the AUTH step contributes when credentials are present. -/
def authTraceFull (a : Option Auth) : List Event :=
  if a.isSome then [Event.auth] else []

/-- The events of a fully successful envelope and data phase: MAIL, one RCPT
per recipient in list order, DATA, the message write, closing the data
writer, QUIT. -/
def envTraceFull (fromAddr : String) (rcpts : List String) : List Event :=
  Event.mail fromAddr ::
    (rcpts.map Event.rcpt ++ [Event.data, Event.write, Event.closeWriter, Event.quit])

/-- The event trace of a fully successful session, fixing the order of the
protocol steps of `SendMail`. -/
def fullTrace (srv : Server) (localHost : String) (a : Option Auth) (fromAddr : String)
    (rcpts : List String) : List Event :=
  Event.hello localHost ::
    (tlsTraceFull srv ++ (authTraceFull a ++ envTraceFull fromAddr rcpts))

theorem doStartTLS_trace (srv : Server) : (doStartTLS srv).2 = tlsTraceFull srv := by
  unfold doStartTLS tlsTraceFull
  split
  · split <;> rfl
  · rfl

theorem doStartTLS_fst_ok (srv : Server)
    (h : srv.extSTARTTLS = true → srv.startTLSResp = .ok ()) :
    (doStartTLS srv).1 = .ok () := by
  cases hx : srv.extSTARTTLS
  · simp [doStartTLS, hx]
  · simp [doStartTLS, hx, h hx]

theorem doStartTLS_ok_iff (srv : Server) :
    (doStartTLS srv).1 = .ok () ↔ (srv.extSTARTTLS = true → srv.startTLSResp = .ok ()) := by
  cases hx : srv.extSTARTTLS
  · simp [doStartTLS, hx]
  · cases hr : srv.startTLSResp <;> simp [doStartTLS, hx, hr]

theorem doAuth_events (srv : Server) (a : Option Auth) :
    ∀ e ∈ (doAuth srv a).2, e = Event.auth := by
  intro e he
  unfold doAuth at he
  split at he
  · simp at he
  · split at he
    · split at he <;> simpa using he
    · simp at he

theorem doAuth_ok_iff (srv : Server) (a : Option Auth) :
    (doAuth srv a).1 = .ok () ↔
      (a.isSome = true → srv.extAUTH = true ∧ srv.authResp = .ok ()) := by
  cases a with
  | none => simp [doAuth]
  | some au =>
    cases hx : srv.extAUTH
    · simp [doAuth, hx]
    · cases hr : srv.authResp <;> simp [doAuth, hx, hr]

theorem doAuth_ok_trace (srv : Server) (a : Option Auth) (h : (doAuth srv a).1 = .ok ()) :
    (doAuth srv a).2 = authTraceFull a := by
  cases a with
  | none => simp [doAuth, authTraceFull]
  | some au =>
    cases hx : srv.extAUTH
    · simp [doAuth, hx] at h
    · simp only [doAuth, hx] at h ⊢
      cases hr : srv.authResp <;> simp [hr, authTraceFull] at h ⊢

theorem doAuth_trace_pre (srv : Server) (a : Option Auth) :
    IsPre (doAuth srv a).2 (authTraceFull a) := by
  cases a with
  | none => simpa [doAuth, authTraceFull] using IsPre.zero []
  | some au =>
    cases hx : srv.extAUTH
    · simpa [doAuth, hx, authTraceFull] using IsPre.zero [Event.auth]
    · simp only [doAuth, hx, authTraceFull]
      cases hr : srv.authResp <;> simp [hr] <;> exact IsPre.same _

theorem rcptLoop_events (srv : Server) (rcpts : List String) :
    ∀ e ∈ (rcptLoop srv rcpts).2, ∃ r, e = Event.rcpt r := by
  induction rcpts with
  | nil => simp [rcptLoop]
  | cons r rs ih =>
    intro e he
    cases h : srv.rcptResp r with
    | error er =>
      simp [rcptLoop, h] at he
      exact ⟨r, he⟩
    | ok u =>
      simp [rcptLoop, h] at he
      rcases he with rfl | he
      · exact ⟨r, rfl⟩
      · exact ih e he

theorem rcptLoop_pre (srv : Server) (rcpts : List String) :
    IsPre (rcptLoop srv rcpts).2 (rcpts.map Event.rcpt) := by
  induction rcpts with
  | nil => simpa [rcptLoop] using IsPre.zero ([] : List Event)
  | cons r rs ih =>
    cases h : srv.rcptResp r with
    | error er => simpa [rcptLoop, h] using IsPre.cons (Event.rcpt r) (IsPre.zero _)
    | ok u => simpa [rcptLoop, h] using IsPre.cons (Event.rcpt r) ih

theorem rcptLoop_ok_iff (srv : Server) (rcpts : List String) :
    (rcptLoop srv rcpts).1 = .ok () ↔ ∀ r ∈ rcpts, srv.rcptResp r = .ok () := by
  induction rcpts with
  | nil => simp [rcptLoop]
  | cons r rs ih =>
    cases hr : srv.rcptResp r with
    | error e => simp [rcptLoop, hr]
    | ok u =>
      cases u
      simp [rcptLoop, hr, ih]

theorem rcptLoop_ok_trace (srv : Server) (rcpts : List String)
    (h : (rcptLoop srv rcpts).1 = .ok ()) :
    (rcptLoop srv rcpts).2 = rcpts.map Event.rcpt := by
  induction rcpts with
  | nil => simp [rcptLoop]
  | cons r rs ih =>
    cases hr : srv.rcptResp r with
    | error e => simp [rcptLoop, hr] at h
    | ok u =>
      simp only [rcptLoop, hr] at h ⊢
      simp [ih h]

theorem envelopePhase_pre (srv : Server) (f : String) (rcpts : List String) :
    IsPre (envelopePhase srv f rcpts).2 (envTraceFull f rcpts) := by
  cases hm : srv.mailResp f with
  | error e =>
    simp only [envelopePhase, hm]
    exact IsPre.cons _ (IsPre.zero _)
  | ok u =>
    cases hrl : (rcptLoop srv rcpts).1 with
    | error e =>
      simp only [envelopePhase, hm, hrl]
      unfold envTraceFull
      exact IsPre.cons _ (IsPre.ext_right (rcptLoop_pre srv rcpts) _)
    | ok u2 =>
      have htr := rcptLoop_ok_trace srv rcpts (by simp [hrl])
      cases hd : srv.dataResp with
      | error e =>
        simp only [envelopePhase, hm, hrl, hd, htr]
        unfold envTraceFull
        exact IsPre.cons _
          (IsPre.append_left _ ⟨[Event.write, Event.closeWriter, Event.quit], rfl⟩)
      | ok u3 =>
        cases hw : srv.writeResp with
        | error e =>
          simp only [envelopePhase, hm, hrl, hd, hw, htr]
          unfold envTraceFull
          exact IsPre.cons _ (IsPre.append_left _ ⟨[Event.closeWriter, Event.quit], rfl⟩)
        | ok u4 =>
          cases hc : srv.closeWriterResp with
          | error e =>
            simp only [envelopePhase, hm, hrl, hd, hw, hc, htr]
            unfold envTraceFull
            exact IsPre.cons _ (IsPre.append_left _ ⟨[Event.quit], rfl⟩)
          | ok u5 =>
            simp only [envelopePhase, hm, hrl, hd, hw, hc, htr]
            unfold envTraceFull
            exact IsPre.cons _ (IsPre.append_left _ (IsPre.same _))

theorem envelopePhase_ok_iff (srv : Server) (f : String) (rcpts : List String) :
    (envelopePhase srv f rcpts).1 = .ok () ↔
      srv.mailResp f = .ok () ∧ ((∀ r ∈ rcpts, srv.rcptResp r = .ok ()) ∧
        srv.dataResp = .ok () ∧ srv.writeResp = .ok () ∧
        srv.closeWriterResp = .ok () ∧ srv.quitResp = .ok ()) := by
  rw [← rcptLoop_ok_iff srv rcpts]
  cases hm : srv.mailResp f <;>
    cases hrl : (rcptLoop srv rcpts).1 <;>
      cases hd : srv.dataResp <;>
        cases hw : srv.writeResp <;>
          cases hc : srv.closeWriterResp <;>
            simp [envelopePhase, hm, hrl, hd, hw, hc]

theorem envelopePhase_ok_trace (srv : Server) (f : String) (rcpts : List String)
    (h : (envelopePhase srv f rcpts).1 = .ok ()) :
    (envelopePhase srv f rcpts).2 = envTraceFull f rcpts := by
  obtain ⟨hm, hrl, hd, hw, hc, hq⟩ := (envelopePhase_ok_iff srv f rcpts).1 h
  have hrl1 : (rcptLoop srv rcpts).1 = .ok () := (rcptLoop_ok_iff srv rcpts).2 hrl
  simp only [envelopePhase, hm, hrl1, hd, hw, hc, rcptLoop_ok_trace srv rcpts hrl1]
  simp [envTraceFull]

theorem IsPre.subset {l m : List Event} (h : IsPre l m) : ∀ e ∈ l, e ∈ m := by
  rcases h with ⟨t, rfl⟩
  intro e he
  exact List.mem_append_left t he

theorem envelopePhase_events (srv : Server) (fromAddr : String) (rcpts : List String) :
    ∀ e ∈ (envelopePhase srv fromAddr rcpts).2,
      e = Event.mail fromAddr ∨ (∃ r, e = Event.rcpt r) ∨ e = Event.data ∨
        e = Event.write ∨ e = Event.closeWriter ∨ e = Event.quit := by
  intro e he
  have hm := (envelopePhase_pre srv fromAddr rcpts).subset e he
  simp [envTraceFull] at hm
  rcases hm with rfl | ⟨r, _, rfl⟩ | rfl | rfl | rfl | rfl
  · exact Or.inl rfl
  · exact Or.inr (Or.inl ⟨r, rfl⟩)
  · exact Or.inr (Or.inr (Or.inl rfl))
  · exact Or.inr (Or.inr (Or.inr (Or.inl rfl)))
  · exact Or.inr (Or.inr (Or.inr (Or.inr (Or.inl rfl))))
  · exact Or.inr (Or.inr (Or.inr (Or.inr (Or.inr rfl))))

theorem doStartTLS_events (srv : Server) :
    ∀ e ∈ (doStartTLS srv).2, e = Event.starttls true := by
  intro e he
  rw [doStartTLS_trace] at he
  unfold tlsTraceFull at he
  split at he <;> simp_all

theorem session_pre (srv : Server) (lh : String) (a : Option Auth) (f : String)
    (rcpts : List String) :
    IsPre (session srv lh a f rcpts).2 (fullTrace srv lh a f rcpts) := by
  cases hh : srv.helloResp with
  | error e =>
    simp only [session, hh]
    exact IsPre.cons _ (IsPre.zero _)
  | ok u =>
    cases ht : (doStartTLS srv).1 with
    | error e =>
      simp only [session, hh, ht]
      rw [doStartTLS_trace]
      unfold fullTrace
      exact IsPre.cons _ (IsPre.of_append _ _)
    | ok u2 =>
      cases ha : (doAuth srv a).1 with
      | error e =>
        simp only [session, hh, ht, ha]
        rw [doStartTLS_trace]
        unfold fullTrace
        exact IsPre.cons _
          (IsPre.append_left _ (IsPre.ext_right (doAuth_trace_pre srv a) _))
      | ok u3 =>
        cases u3
        simp only [session, hh, ht, ha]
        rw [doStartTLS_trace, doAuth_ok_trace srv a ha]
        unfold fullTrace
        rw [List.append_assoc]
        exact IsPre.cons _
          (IsPre.append_left _ (IsPre.append_left _ (envelopePhase_pre srv f rcpts)))

/-- All the protocol steps of one `SendMail` session succeeding, spelled out
step by step. -/
def stepsOK (srv : Server) (a : Option Auth) (fromAddr : String) (rcpts : List String) : Prop :=
  srv.helloResp = .ok () ∧
  (srv.extSTARTTLS = true → srv.startTLSResp = .ok ()) ∧
  (a.isSome = true → srv.extAUTH = true ∧ srv.authResp = .ok ()) ∧
  srv.mailResp fromAddr = .ok () ∧
  ((∀ r ∈ rcpts, srv.rcptResp r = .ok ()) ∧
    srv.dataResp = .ok () ∧ srv.writeResp = .ok () ∧
    srv.closeWriterResp = .ok () ∧ srv.quitResp = .ok ())

theorem session_ok_iff (srv : Server) (lh : String) (a : Option Auth) (f : String)
    (rcpts : List String) :
    (session srv lh a f rcpts).1 = .ok () ↔ stepsOK srv a f rcpts := by
  unfold stepsOK
  rw [← doStartTLS_ok_iff srv, ← doAuth_ok_iff srv a, ← envelopePhase_ok_iff srv f rcpts]
  cases hh : srv.helloResp <;>
    cases ht : (doStartTLS srv).1 <;>
      cases ha : (doAuth srv a).1 <;>
        simp [session, hh, ht, ha]

theorem session_ok_trace (srv : Server) (lh : String) (a : Option Auth) (f : String)
    (rcpts : List String) (h : (session srv lh a f rcpts).1 = .ok ()) :
    (session srv lh a f rcpts).2 = fullTrace srv lh a f rcpts := by
  cases hh : srv.helloResp with
  | error e => simp [session, hh] at h
  | ok u =>
    cases ht : (doStartTLS srv).1 with
    | error e => simp [session, hh, ht] at h
    | ok u2 =>
      cases ha : (doAuth srv a).1 with
      | error e => simp [session, hh, ht, ha] at h
      | ok u3 =>
        cases u3
        have he : (envelopePhase srv f rcpts).1 = .ok () := by
          simpa [session, hh, ht, ha] using h
        simp only [session, hh, ht, ha]
        rw [doStartTLS_trace, doAuth_ok_trace srv a ha, envelopePhase_ok_trace srv f rcpts he]
        simp [fullTrace]

theorem session_events (srv : Server) (lh : String) (a : Option Auth) (f : String)
    (rcpts : List String) :
    ∀ e ∈ (session srv lh a f rcpts).2, e ≠ Event.dial ∧ e ≠ Event.close := by
  intro e he
  have hm := (session_pre srv lh a f rcpts).subset e he
  unfold fullTrace at hm
  simp [tlsTraceFull, authTraceFull, envTraceFull] at hm
  rcases hm with rfl | hm | hm | rfl | ⟨r, _, rfl⟩ | rfl | rfl | rfl | rfl
  · simp
  · rcases hm with ⟨_, rfl⟩
    simp
  · rcases hm with ⟨_, rfl⟩
    simp
  all_goals simp

/-- Claim C6: with valid addresses, `SendMail` performs its protocol steps
in the fixed order connect, greeting naming the local host, optional
STARTTLS upgrade, optional AUTH, sender declaration, recipient declarations
in the supplied order, data transfer, graceful QUIT: a failing dial returns
its error with no events; otherwise the session trace is always an initial
segment of `fullTrace` (so the first failing step ends the session with none
of the remaining steps performed), the result of `SendMail` is the session
result, the call succeeds exactly when every step succeeds (`stepsOK`), and
on success the whole of `fullTrace` is performed. -/
theorem sendMail_step_order (srv : Server) (localHost : String) (a : Option Auth)
    (fromAddr : String) (rcpts : List String) (msg : List Nat)
    (hf : containsCRLF fromAddr = false) (hto : ∀ r ∈ rcpts, containsCRLF r = false) :
    (∀ e, srv.dial = .error e →
       SendMail srv localHost a fromAddr rcpts msg = (.error e, [])) ∧
    (srv.dial = .ok () →
       (SendMail srv localHost a fromAddr rcpts msg).2 =
           Event.dial :: (session srv localHost a fromAddr rcpts).2 ++ [Event.close] ∧
         (SendMail srv localHost a fromAddr rcpts msg).1 =
           (session srv localHost a fromAddr rcpts).1 ∧
         IsPre (session srv localHost a fromAddr rcpts).2
           (fullTrace srv localHost a fromAddr rcpts) ∧
         ((SendMail srv localHost a fromAddr rcpts msg).1 = .ok () ↔
           stepsOK srv a fromAddr rcpts) ∧
         ((SendMail srv localHost a fromAddr rcpts msg).1 = .ok () →
           (session srv localHost a fromAddr rcpts).2 =
             fullTrace srv localHost a fromAddr rcpts)) := by
  have hv := sendMail_eq_afterValidation srv localHost a fromAddr rcpts msg hf hto
  constructor
  · intro e he
    rw [hv]
    simp [afterValidation, he]
  · intro hd
    rw [hv]
    simp only [afterValidation, hd]
    exact ⟨trivial, trivial, session_pre srv localHost a fromAddr rcpts,
      session_ok_iff srv localHost a fromAddr rcpts,
      session_ok_trace srv localHost a fromAddr rcpts⟩

/-- Witness for C6: a fully successful authenticated session against
`okSrv` performs exactly the full trace. -/
theorem sendMail_step_order_w :
    (SendMail okSrv "mta.local" (some ⟨"plain"⟩) "s@x" ["r1@x", "r2@x"] []).1 = .ok () ∧
    (SendMail okSrv "mta.local" (some ⟨"plain"⟩) "s@x" ["r1@x", "r2@x"] []).2 =
      Event.dial :: fullTrace okSrv "mta.local" (some ⟨"plain"⟩) "s@x" ["r1@x", "r2@x"] ++
        [Event.close] := by
  have h := (sendMail_step_order okSrv "mta.local" (some ⟨"plain"⟩) "s@x" ["r1@x", "r2@x"] []
    (by decide) (by decide)).2 rfl
  have hok : (SendMail okSrv "mta.local" (some ⟨"plain"⟩) "s@x" ["r1@x", "r2@x"] []).1 =
      .ok () :=
    h.2.2.2.1.mpr ⟨rfl, fun _ => rfl, fun _ => ⟨rfl, rfl⟩, rfl, by decide, rfl, rfl, rfl, rfl⟩
  refine ⟨hok, ?_⟩
  rw [h.1, h.2.2.2.2 hok]

/-- Claim C7: in every `SendMail` trace the number of connections opened
equals the number closed and is at most one; when address validation passes
and the dial succeeds, exactly one connection is opened and the trace ends
with its close (so the connection is closed by return time whatever step
failed); when validation or the dial fails, the trace is empty — no
connection was opened, none leaked. -/
theorem sendMail_connection_balance (srv : Server) (localHost : String) (a : Option Auth)
    (fromAddr : String) (rcpts : List String) (msg : List Nat) :
    (sendTrace srv localHost a fromAddr rcpts msg).count Event.dial =
        (sendTrace srv localHost a fromAddr rcpts msg).count Event.close ∧
      (sendTrace srv localHost a fromAddr rcpts msg).count Event.dial ≤ 1 ∧
      (containsCRLF fromAddr = false → (∀ r ∈ rcpts, containsCRLF r = false) →
        srv.dial = .ok () →
        (sendTrace srv localHost a fromAddr rcpts msg).count Event.dial = 1 ∧
          (sendTrace srv localHost a fromAddr rcpts msg).getLast? = some Event.close) ∧
      ((containsCRLF fromAddr = true ∨ (∃ r ∈ rcpts, containsCRLF r = true) ∨
          (∃ e, srv.dial = .error e)) →
        sendTrace srv localHost a fromAddr rcpts msg = []) := by
  by_cases hf : containsCRLF fromAddr = true
  · have hz : sendTrace srv localHost a fromAddr rcpts msg = [] := by
      simp [sendTrace, SendMail, validateLine, hf]
    simp [hz, hf]
  · simp only [Bool.not_eq_true] at hf
    by_cases hex : ∃ r ∈ rcpts, containsCRLF r = true
    · have hz : sendTrace srv localHost a fromAddr rcpts msg = [] := by
        simp [sendTrace, SendMail, validateLine, hf, validateAll_eq_err rcpts hex]
      refine ⟨by simp [hz], by simp [hz], ?_, fun _ => hz⟩
      intro _ hall _
      rcases hex with ⟨r, hr, hcr⟩
      rw [hall r hr] at hcr
      exact absurd hcr (by simp)
    · have hex' : ∀ r ∈ rcpts, containsCRLF r = false := by
        intro r hr
        by_contra hc
        exact hex ⟨r, hr, by simpa using hc⟩
      have hv := sendMail_eq_afterValidation srv localHost a fromAddr rcpts msg hf hex'
      cases hd : srv.dial with
      | error e =>
        have hz : sendTrace srv localHost a fromAddr rcpts msg = [] := by
          simp [sendTrace, hv, afterValidation, hd]
        refine ⟨by simp [hz], by simp [hz], ?_, fun _ => hz⟩
        intro _ _ hdial
        exact absurd hdial (by simp)
      | ok u =>
        cases u
        have htr : sendTrace srv localHost a fromAddr rcpts msg =
            Event.dial :: (session srv localHost a fromAddr rcpts).2 ++ [Event.close] := by
          simp [sendTrace, hv, afterValidation, hd]
        have h1 : (session srv localHost a fromAddr rcpts).2.count Event.dial = 0 :=
          List.count_eq_zero.2 fun hmem =>
            (session_events srv localHost a fromAddr rcpts _ hmem).1 rfl
        have h2 : (session srv localHost a fromAddr rcpts).2.count Event.close = 0 :=
          List.count_eq_zero.2 fun hmem =>
            (session_events srv localHost a fromAddr rcpts _ hmem).2 rfl
        refine ⟨?_, ?_, fun _ _ _ => ⟨?_, ?_⟩, ?_⟩
        · rw [htr]
          simp [List.count_cons, List.count_append, h1, h2]
        · rw [htr]
          simp [List.count_cons, List.count_append, h1]
        · rw [htr]
          simp [List.count_cons, List.count_append, h1]
        · rw [htr, List.getLast?_concat]
        · intro h
          rcases h with h | ⟨r, hr, hcr⟩ | ⟨e, he⟩
          · rw [hf] at h
            exact absurd h (by simp)
          · rw [hex' r hr] at hcr
            exact absurd hcr (by simp)
          · exact absurd he (by simp)

/-- Witness for C7: against `okSrv`, one dial, and the trace ends closing
the connection. -/
theorem sendMail_connection_balance_w :
    (sendTrace okSrv "mta.local" none "s@x" ["r@x"] []).count Event.dial = 1 ∧
    (sendTrace okSrv "mta.local" none "s@x" ["r@x"] []).getLast? = some Event.close :=
  (sendMail_connection_balance okSrv "mta.local" none "s@x" ["r@x"] []).2.2.1
    (by decide) (by decide) rfl

theorem session_decomp (srv : Server) (lh : String) (a : Option Auth) (f : String)
    (rcpts : List String) (hh : srv.helloResp = .ok ()) :
    ∃ tail, (session srv lh a f rcpts).2 = Event.hello lh :: ((doStartTLS srv).2 ++ tail) ∧
      ∀ e ∈ tail, e ∈ (doAuth srv a).2 ∨ e ∈ (envelopePhase srv f rcpts).2 := by
  cases ht : (doStartTLS srv).1 with
  | error e =>
    refine ⟨[], ?_, by simp⟩
    simp [session, hh, ht]
  | ok u =>
    cases ha : (doAuth srv a).1 with
    | error e =>
      refine ⟨(doAuth srv a).2, ?_, fun e he => Or.inl he⟩
      simp [session, hh, ht, ha]
    | ok u2 =>
      refine ⟨(doAuth srv a).2 ++ (envelopePhase srv f rcpts).2, ?_, ?_⟩
      · simp [session, hh, ht, ha]
      · intro e he
        exact List.mem_append.1 he

/-- Claim C5: when the server does not advertise STARTTLS, `SendMail`
proceeds over the plaintext connection (no upgrade event anywhere in the
trace); when it does advertise it, the upgrade — carrying
`InsecureSkipVerify: true`, i.e. relaxed certificate validation — is
attempted directly after the greeting and before every AUTH, MAIL, RCPT or
DATA event, and no further upgrade happens in the rest of the session. -/
theorem sendMail_starttls_policy (srv : Server) (localHost : String) (a : Option Auth)
    (fromAddr : String) (rcpts : List String) (msg : List Nat)
    (hf : containsCRLF fromAddr = false) (hto : ∀ r ∈ rcpts, containsCRLF r = false)
    (hdial : srv.dial = .ok ()) (hhello : srv.helloResp = .ok ()) :
    (srv.extSTARTTLS = false →
      ∃ rest, sendTrace srv localHost a fromAddr rcpts msg =
          Event.dial :: Event.hello localHost :: rest ∧
        ∀ b, Event.starttls b ∉ sendTrace srv localHost a fromAddr rcpts msg) ∧
    (srv.extSTARTTLS = true →
      ∃ rest, sendTrace srv localHost a fromAddr rcpts msg =
          Event.dial :: Event.hello localHost :: Event.starttls true :: rest ∧
        ∀ b, Event.starttls b ∉ rest) := by
  obtain ⟨tail, hsess, htail⟩ := session_decomp srv localHost a fromAddr rcpts hhello
  have htr : sendTrace srv localHost a fromAddr rcpts msg =
      Event.dial :: (session srv localHost a fromAddr rcpts).2 ++ [Event.close] := by
    simp [sendTrace, sendMail_eq_afterValidation srv localHost a fromAddr rcpts msg hf hto,
      afterValidation, hdial]
  have hnotail : ∀ b, Event.starttls b ∉ tail := by
    intro b hb
    rcases htail _ hb with h | h
    · exact absurd (doAuth_events srv a _ h) (by simp)
    · rcases envelopePhase_events srv fromAddr rcpts _ h with h2 | ⟨r, h2⟩ | h2 | h2 | h2 | h2 <;>
        exact absurd h2 (by simp)
  constructor
  · intro hext
    refine ⟨tail ++ [Event.close], ?_, ?_⟩
    · rw [htr, hsess, doStartTLS_trace]
      simp [tlsTraceFull, hext]
    · intro b hb
      rw [htr, hsess, doStartTLS_trace] at hb
      simp [tlsTraceFull, hext] at hb
      exact hnotail b hb
  · intro hext
    refine ⟨tail ++ [Event.close], ?_, ?_⟩
    · rw [htr, hsess, doStartTLS_trace]
      simp [tlsTraceFull, hext]
    · intro b hb
      rcases List.mem_append.1 hb with hb | hb
      · exact hnotail b hb
      · simp at hb

/-- A server like `okSrv` that does not advertise STARTTLS. -/
def noTlsSrv : Server := { okSrv with extSTARTTLS := false }

/-- Witness for C5: the upgrade event occurs against `okSrv` (which
advertises STARTTLS) and never occurs against `noTlsSrv`. -/
theorem sendMail_starttls_policy_w :
    Event.starttls true ∈ sendTrace okSrv "mta.local" none "s@x" ["r@x"] [] ∧
      Event.starttls true ∉ sendTrace noTlsSrv "mta.local" none "s@x" ["r@x"] [] := by
  constructor
  · obtain ⟨rest, htr2, _⟩ := (sendMail_starttls_policy okSrv "mta.local" none "s@x"
      ["r@x"] [] (by decide) (by decide) rfl rfl).2 rfl
    rw [htr2]
    simp
  · intro hb
    obtain ⟨rest, _, hno⟩ := (sendMail_starttls_policy noTlsSrv "mta.local" none "s@x"
      ["r@x"] [] (by decide) (by decide) rfl rfl).1 rfl
    exact hno true hb

/-- Claim C4: when credentials are supplied and the server does not
advertise AUTH, `SendMail` fails with the capability error
`noAuthSupport` ("smtp: server doesn't support AUTH"); when the
authentication exchange itself fails, `SendMail` fails with that error; and
in either failing case the trace contains no MAIL, RCPT or DATA event — the
client never declares sender, recipients or message unauthenticated. -/
theorem sendMail_auth_guard (srv : Server) (localHost : String) (au : Auth)
    (fromAddr : String) (rcpts : List String) (msg : List Nat)
    (hf : containsCRLF fromAddr = false) (hto : ∀ r ∈ rcpts, containsCRLF r = false)
    (hdial : srv.dial = .ok ()) (hhello : srv.helloResp = .ok ())
    (htls : srv.extSTARTTLS = true → srv.startTLSResp = .ok ()) :
    (srv.extAUTH = false →
      (SendMail srv localHost (some au) fromAddr rcpts msg).1 = .error .noAuthSupport) ∧
    (srv.extAUTH = true → ∀ e, srv.authResp = .error e →
      (SendMail srv localHost (some au) fromAddr rcpts msg).1 = .error e) ∧
    ((srv.extAUTH = false ∨ ∃ e, srv.authResp = .error e) →
      (∀ s, Event.mail s ∉ sendTrace srv localHost (some au) fromAddr rcpts msg) ∧
        (∀ r, Event.rcpt r ∉ sendTrace srv localHost (some au) fromAddr rcpts msg) ∧
        Event.data ∉ sendTrace srv localHost (some au) fromAddr rcpts msg) := by
  have hv := sendMail_eq_afterValidation srv localHost (some au) fromAddr rcpts msg hf hto
  have ht1 : (doStartTLS srv).1 = .ok () := doStartTLS_fst_ok srv htls
  refine ⟨?_, ?_, ?_⟩
  · intro hext
    have hde : (doAuth srv (some au)).1 = .error .noAuthSupport := by
      simp [doAuth, hext]
    rw [hv]
    simp [afterValidation, hdial, session, hhello, ht1, hde]
  · intro hext e he
    have hde : (doAuth srv (some au)).1 = .error e := by
      simp [doAuth, hext, he]
    rw [hv]
    simp [afterValidation, hdial, session, hhello, ht1, hde]
  · intro hfail
    obtain ⟨e0, hde⟩ : ∃ e0, (doAuth srv (some au)).1 = .error e0 := by
      rcases hfail with hext | ⟨e, he⟩
      · exact ⟨.noAuthSupport, by simp [doAuth, hext]⟩
      · cases hext2 : srv.extAUTH
        · exact ⟨.noAuthSupport, by simp [doAuth, hext2]⟩
        · exact ⟨e, by simp [doAuth, hext2, he]⟩
    have hsess : (session srv localHost (some au) fromAddr rcpts).2 =
        Event.hello localHost :: (doStartTLS srv).2 ++ (doAuth srv (some au)).2 := by
      simp [session, hhello, ht1, hde]
    have htr : sendTrace srv localHost (some au) fromAddr rcpts msg =
        Event.dial :: (session srv localHost (some au) fromAddr rcpts).2 ++ [Event.close] := by
      simp [sendTrace, hv, afterValidation, hdial]
    have hstep : ∀ e1 ∈ sendTrace srv localHost (some au) fromAddr rcpts msg,
        e1 = Event.dial ∨ e1 = Event.hello localHost ∨ e1 ∈ (doStartTLS srv).2 ∨
          e1 ∈ (doAuth srv (some au)).2 ∨ e1 = Event.close := by
      intro e1 he1
      rw [htr, hsess] at he1
      simp at he1
      tauto
    refine ⟨?_, ?_, ?_⟩
    · intro s hb
      rcases hstep _ hb with h | h | h | h | h
      · exact absurd h (by simp)
      · exact absurd h (by simp)
      · exact absurd (doStartTLS_events srv _ h) (by simp)
      · exact absurd (doAuth_events srv (some au) _ h) (by simp)
      · exact absurd h (by simp)
    · intro r hb
      rcases hstep _ hb with h | h | h | h | h
      · exact absurd h (by simp)
      · exact absurd h (by simp)
      · exact absurd (doStartTLS_events srv _ h) (by simp)
      · exact absurd (doAuth_events srv (some au) _ h) (by simp)
      · exact absurd h (by simp)
    · intro hb
      rcases hstep _ hb with h | h | h | h | h
      · exact absurd h (by simp)
      · exact absurd h (by simp)
      · exact absurd (doStartTLS_events srv _ h) (by simp)
      · exact absurd (doAuth_events srv (some au) _ h) (by simp)
      · exact absurd h (by simp)

/-- A server like `okSrv` that does not advertise AUTH. -/
def noAuthSrv : Server := { okSrv with extAUTH := false }

/-- Witness for C4 against `noAuthSrv`: the capability error is returned
and no DATA event happens. -/
theorem sendMail_auth_guard_w :
    (SendMail noAuthSrv "mta.local" (some ⟨"plain"⟩) "s@x" ["r@x"] []).1 =
        .error .noAuthSupport ∧
      Event.data ∉ sendTrace noAuthSrv "mta.local" (some ⟨"plain"⟩) "s@x" ["r@x"] [] :=
  have h := sendMail_auth_guard noAuthSrv "mta.local" ⟨"plain"⟩ "s@x" ["r@x"] []
    (by decide) (by decide) rfl rfl (fun _ => rfl)
  ⟨h.1 rfl, (h.2.2 (Or.inl rfl)).2.2⟩

/-- The relay settings parsed from `/etc/go-sendmail.yaml`; a key missing
from the file is the empty string, Go's zero value for an `omitempty` YAML
field. -/
structure RelayConfig where
  relayHost : String
  relayLogin : String
  relayPassword : String

/-- Outcome of reading and parsing the configuration file in `Send`. -/
inductive FileRead where
  | readError (e : String)
  | parseError (e : String)
  | ok (cfg : RelayConfig)

/-- Result of `Send`: the error return for configuration failures, or the
chosen delivery path — the smart-host path (`SendSmarthost` with the
resolved host, login and password) or the direct per-domain path
(`SendLikeMTA`). -/
inductive SendOutcome where
  | failure (msg : String)
  | smarthost (host login password : String)
  | likeMTA
  deriving DecidableEq

/-- One relay setting as resolved by `Send`: the file value when present,
otherwise the environment value
(`if relayConfig.X == "" { relayConfig.X = os.Getenv(...) }`). -/
def resolveSetting (fileVal envVal : String) : String :=
  if fileVal = "" then envVal else fileVal

/-- Embeds `Envelope.Send`: read and parse `/etc/go-sendmail.yaml`
(modelled by `file`), fill each missing relay setting from the environment
(`env` maps a variable name to its value, empty when unset), then pick the
smart-host path when the resolved relay host is non-empty and the direct
MTA-like path otherwise. -/
def Send (file : FileRead) (env : String → String) : SendOutcome :=
  match file with
  | .readError e => .failure ("Failed to read config file: " ++ e)
  | .parseError e => .failure ("Error while parsing config file: " ++ e)
  | .ok cfg =>
    if resolveSetting cfg.relayHost (env "SENDMAIL_SMART_HOST") ≠ "" then
      .smarthost (resolveSetting cfg.relayHost (env "SENDMAIL_SMART_HOST"))
        (resolveSetting cfg.relayLogin (env "SENDMAIL_SMART_LOGIN"))
        (resolveSetting cfg.relayPassword (env "SENDMAIL_SMART_PASSWORD"))
    else .likeMTA

/-- A parsed mail message: the header (key to list of raw values, as Go's
`mail.Header` map) and the raw body bytes. -/
structure Message where
  header : List (String × List String)
  body : List Nat
  deriving DecidableEq

/-- Replace the values of header key `k` (Go `msg.Header[k] = v`). -/
def setHeader (m : Message) (k : String) (v : List String) : Message :=
  { m with header := (k, v) :: m.header.filter (fun p => !(p.1 == k)) }

/-- Look up the values of header key `k` (empty when absent). -/
def getHeader (m : Message) (k : String) : List String :=
  match m.header.find? (fun p => p.1 == k) with
  | some p => p.2
  | none => []

/-- Oracle for the external parsers and system calls used by `NewEnvelope`:
`mail.ReadMessage`, `GetDumbMessage`, `mail.ParseAddressList` over the
comma-joined recipient strings, `Header.AddressList` (modelled as parsing
the raw values of a header field, composed with `AddressListToSlice`),
`user.Current`, `os.Hostname`, and base64 encoding of the subject. -/
structure Parse where
  readMessage : List Nat → Except String Message
  dumbMessage : String → List String → List Nat → Except String Message
  parseAddressList : String → Except String (List String)
  parseAddrs : List String → Except String (List String)
  currentUser : Except String String
  hostname : Except String String
  b64 : String → String

/-- Embeds the `Config` struct of the sendmail package. -/
structure Config where
  sender : String
  recipients : List String
  subject : String
  body : List Nat
  portSMTP : String

/-- Embeds the `Envelope` struct: the parsed message, the resolved
recipient addresses and the SMTP port. -/
structure Envelope where
  msg : Message
  recipients : List String
  portSMTP : String

/-- The initial `mail.ReadMessage` step of `NewEnvelope`, with the
`GetDumbMessage` fallback used when the body fails to parse and explicit
recipients exist; a remaining error is returned as the construction
error. -/
def getMessage (P : Parse) (config : Config) : Except String Message :=
  match P.readMessage config.body with
  | .ok m => .ok m
  | .error e =>
    if 0 < config.recipients.length then
      P.dumbMessage config.sender config.recipients config.body
    else .error e

/-- The sender-resolution step of `NewEnvelope`: an explicit sender
overwrites the From header; otherwise the first From address is used, and
failing that the current user and hostname form `user@hostname` (an error
of either system call leaves the sender empty and the message
untouched). -/
def resolveSender (P : Parse) (m : Message) (sender : String) : Message × String :=
  if sender ≠ "" then (setHeader m "From" [sender], sender)
  else
    let s1 := match P.parseAddrs (getHeader m "From") with
      | .ok (a :: _) => a
      | _ => ""
    if s1 ≠ "" then (m, s1)
    else
      match P.currentUser, P.hostname with
      | .ok u, .ok h => (setHeader m "From" [u ++ "@" ++ h], u ++ "@" ++ h)
      | _, _ => (m, "")

/-- The header-mutation phase of `NewEnvelope`: sender resolution followed
by the base64-encoded Subject overwrite. -/
def prepMessage (P : Parse) (config : Config) (m : Message) : Message :=
  if config.subject ≠ "" then
    setHeader (resolveSender P m config.sender).1 "Subject"
      ["=?UTF-8?B?" ++ P.b64 config.subject]
  else (resolveSender P m config.sender).1

/-- The recipient-resolution step of `NewEnvelope`: explicit recipients are
parsed as one comma-joined address list, a parse error being silently
ignored (the list stays empty); otherwise the To header is parsed (its
error is returned) and Cc and Bcc are appended, their errors ignored. -/
def resolveRecipients (P : Parse) (m : Message) (config : Config) :
    Except String (List String) :=
  if 0 < config.recipients.length then
    match P.parseAddressList (String.intercalate "," config.recipients) with
    | .ok addrs => .ok addrs
    | .error _ => .ok []
  else
    match P.parseAddrs (getHeader m "To") with
    | .error e => .error e
    | .ok toAddrs =>
      .ok (toAddrs ++
        (match P.parseAddrs (getHeader m "Cc") with
         | .ok l => l
         | .error _ => []) ++
        (match P.parseAddrs (getHeader m "Bcc") with
         | .ok l => l
         | .error _ => []))

/-- Embeds `NewEnvelope`: parse or synthesize the message, default the
port to 25, resolve sender and subject, resolve the recipients, and fail
with "no recipients listed" when none remain. -/
def NewEnvelope (P : Parse) (config : Config) : Except String Envelope :=
  match getMessage P config with
  | .error e => .error e
  | .ok m0 =>
    match resolveRecipients P (prepMessage P config m0) config with
    | .error e => .error e
    | .ok recipients =>
      if recipients.length = 0 then .error "no recipients listed"
      else
        .ok ⟨prepMessage P config m0, recipients,
          if config.portSMTP = "" then "25" else config.portSMTP⟩

/-- Claim C2: for each relay setting, `Send` uses the configuration-file
value when it is present and consults the corresponding environment
variable (`SENDMAIL_SMART_HOST` / `SENDMAIL_SMART_LOGIN` /
`SENDMAIL_SMART_PASSWORD`) exactly when the file value is absent; in
particular a file without a relay host still selects the smart-host path
from the environment value instead of failing. -/
theorem send_relay_precedence (cfg : RelayConfig) (env : String → String) :
    (∀ fv ev, fv ≠ "" → resolveSetting fv ev = fv) ∧
    (∀ ev, resolveSetting "" ev = ev) ∧
    (cfg.relayHost ≠ "" →
      Send (.ok cfg) env = .smarthost cfg.relayHost
        (resolveSetting cfg.relayLogin (env "SENDMAIL_SMART_LOGIN"))
        (resolveSetting cfg.relayPassword (env "SENDMAIL_SMART_PASSWORD"))) ∧
    (cfg.relayHost = "" → env "SENDMAIL_SMART_HOST" ≠ "" →
      Send (.ok cfg) env = .smarthost (env "SENDMAIL_SMART_HOST")
        (resolveSetting cfg.relayLogin (env "SENDMAIL_SMART_LOGIN"))
        (resolveSetting cfg.relayPassword (env "SENDMAIL_SMART_PASSWORD"))) := by
  refine ⟨fun fv ev h => by simp [resolveSetting, h], fun ev => by simp [resolveSetting],
    ?_, ?_⟩
  · intro hh
    have hres : resolveSetting cfg.relayHost (env "SENDMAIL_SMART_HOST") = cfg.relayHost := by
      simp [resolveSetting, hh]
    simp [Send, hres, hh]
  · intro hh he
    have hres : resolveSetting cfg.relayHost (env "SENDMAIL_SMART_HOST") =
        env "SENDMAIL_SMART_HOST" := by
      simp [resolveSetting, hh]
    simp [Send, hres, he]

/-- Environment for the relay witnesses: a smart host and a login are set,
the password variable is unset. -/
def wEnv : String → String := fun k =>
  if k == "SENDMAIL_SMART_HOST" then "env.example"
  else if k == "SENDMAIL_SMART_LOGIN" then "envlogin"
  else ""

/-- Witness for C2: the file host wins over the environment host, the
absent file login falls back to the environment login, and the file
password wins while the environment has none. -/
theorem send_relay_precedence_w :
    Send (.ok ⟨"file.example", "", "filepw"⟩) wEnv =
      .smarthost "file.example" "envlogin" "filepw" := by
  have h := (send_relay_precedence ⟨"file.example", "", "filepw"⟩ wEnv).2.2.1 (by decide)
  rw [h]
  rfl

/-- Claim C9: `Send` selects between exactly two delivery paths — the
smart-host path, taken with the resolved host, login and password exactly
when the resolved relay host is non-empty, and the direct per-domain
`SendLikeMTA` path when it is empty. -/
theorem send_two_paths (cfg : RelayConfig) (env : String → String) :
    (resolveSetting cfg.relayHost (env "SENDMAIL_SMART_HOST") ≠ "" →
      Send (.ok cfg) env =
        .smarthost (resolveSetting cfg.relayHost (env "SENDMAIL_SMART_HOST"))
          (resolveSetting cfg.relayLogin (env "SENDMAIL_SMART_LOGIN"))
          (resolveSetting cfg.relayPassword (env "SENDMAIL_SMART_PASSWORD"))) ∧
    (resolveSetting cfg.relayHost (env "SENDMAIL_SMART_HOST") = "" →
      Send (.ok cfg) env = .likeMTA) := by
  constructor
  · intro h
    simp [Send, h]
  · intro h
    simp [Send, h]

/-- Witness for C9: with no relay host anywhere, `Send` picks the direct
MTA-like path; with one from the environment, the smart-host path. -/
theorem send_two_paths_w :
    Send (.ok ⟨"", "", ""⟩) (fun _ => "") = .likeMTA ∧
      Send (.ok ⟨"", "", ""⟩) wEnv = .smarthost "env.example" "envlogin" "" := by
  constructor
  · exact (send_two_paths ⟨"", "", ""⟩ (fun _ => "")).2 rfl
  · have h := (send_two_paths ⟨"", "", ""⟩ wEnv).1 (by decide)
    rw [h]
    rfl

/-- Claim C8: `NewEnvelope` either fails or returns an envelope holding at
least one recipient; when the resolved recipient list is empty it returns
the construction-time error "no recipients listed". -/
theorem newEnvelope_recipients (P : Parse) (config : Config) :
    (∀ env, NewEnvelope P config = .ok env → 0 < env.recipients.length) ∧
    (∀ m0, getMessage P config = .ok m0 →
      resolveRecipients P (prepMessage P config m0) config = .ok [] →
      NewEnvelope P config = .error "no recipients listed") := by
  constructor
  · intro env he
    cases hm : getMessage P config with
    | error e => simp [NewEnvelope, hm] at he
    | ok m0 =>
      cases hr : resolveRecipients P (prepMessage P config m0) config with
      | error e => simp [NewEnvelope, hm, hr] at he
      | ok recipients =>
        by_cases hz : recipients.length = 0
        · simp [NewEnvelope, hm, hr, hz] at he
        · simp only [NewEnvelope, hm, hr] at he
          rw [if_neg hz] at he
          injection he with h2
          rw [← h2]
          exact Nat.pos_of_ne_zero hz
  · intro m0 hm hr
    simp [NewEnvelope, hm, hr]

/-- Message produced by the witness oracle. -/
def wMsg : Message := ⟨[("To", ["a@b"])], []⟩

/-- A well-behaved witness oracle for `NewEnvelope`. -/
def wParse : Parse where
  readMessage := fun _ => .ok wMsg
  dumbMessage := fun _ rs b => .ok ⟨[("To", rs)], b⟩
  parseAddressList := fun s => .ok [s]
  parseAddrs := fun vals =>
    if vals.isEmpty then .error "mail: header not in message" else .ok vals
  currentUser := .ok "root"
  hostname := .ok "mta.local"
  b64 := fun s => s

/-- Witness for C8: a successful construction from the To header yields a
non-empty recipient list. -/
theorem newEnvelope_recipients_w :
    0 < (Envelope.recipients
      ⟨setHeader wMsg "From" ["root@mta.local"], ["a@b"], "25"⟩).length :=
  (newEnvelope_recipients wParse ⟨"", [], "", [], ""⟩).1
    ⟨setHeader wMsg "From" ["root@mta.local"], ["a@b"], "25"⟩ rfl

/-- Claim C10: when explicit recipients are supplied but fail to parse as
an address list, the parse error is silently discarded, the recipient list
stays empty, and `NewEnvelope` reports "no recipients listed" instead of
surfacing the underlying parse error. -/
theorem newEnvelope_parse_error_swallowed (P : Parse) (config : Config) (m0 : Message)
    (e : String)
    (hne : config.recipients ≠ [])
    (hparse : P.parseAddressList (String.intercalate "," config.recipients) = .error e)
    (hm : getMessage P config = .ok m0) :
    NewEnvelope P config = .error "no recipients listed" := by
  have hlen : 0 < config.recipients.length := List.length_pos.2 hne
  have hr : resolveRecipients P (prepMessage P config m0) config = .ok [] := by
    simp [resolveRecipients, hlen, hparse]
  simp [NewEnvelope, hm, hr]

/-- Witness oracle whose address-list parsing always fails. -/
def wParseBad : Parse :=
  { wParse with parseAddressList := fun _ => .error "mail: no angle-addr" }

/-- Witness for C10: an unparsable explicit recipient makes `NewEnvelope`
report the missing-recipients error, not the parse error. -/
theorem newEnvelope_parse_error_swallowed_w :
    NewEnvelope wParseBad ⟨"s@x", ["not an address"], "", [], ""⟩ =
      .error "no recipients listed" :=
  newEnvelope_parse_error_swallowed wParseBad ⟨"s@x", ["not an address"], "", [], ""⟩
    wMsg "mail: no angle-addr" (by decide) rfl rfl
